import Mathlib

/-!
Verification of the hybrid recommender core of `manhua-matchmaker`
(`src/models/recommender.py`, class `ManhuaRecommender`).

Shallow embedding notes:
* Python floats are modelled as exact rationals (`ℚ`); the constants
  0.5, 0.3, 0.2, 0.4 of the source become 1/2, 3/10, 1/5, 2/5.
* The external collaborators (SentenceTransformer encoding, the FAISS
  inner-product search, scikit-learn TF-IDF cosine similarity) are not code
  of this repository; the dense search result (`I[0]` zipped with `D[0]`)
  and the per-position sparse cosine score enter `recommend` as parameters,
  exactly at the interface the source consumes them (lines 100-123).
* Python `list.sort(key=..., reverse=True)` is a stable descending sort;
  stable-sort output is unique, so the stable insertion sort below is an
  exact model of line 165.
* Python string operations (`lower`, `split`, `in`) are modelled on the
  character lists of Lean strings; `str.lower` as `Char.toLower` (faithful
  for the ASCII data the boosts compare).
-/

namespace Manhua

attribute [local semireducible] Rat.mul Rat.inv Rat.add Rat.sub

/-- Model of Python `needle.isprefix`-style check on char lists:
`startsWithL n h` is true iff `n` is an initial segment of `h`. -/
def startsWithL : List Char → List Char → Bool
  | [], _ => true
  | _ :: _, [] => false
  | a :: as, b :: bs => a == b && startsWithL as bs

/-- Model of Python substring containment: `containsL n h` is true iff the
char list `n` occurs contiguously inside `h`. -/
def containsL (n : List Char) : List Char → Bool
  | [] => n.isEmpty
  | b :: bs => startsWithL n (b :: bs) || containsL n bs

/-- Python `needle in hay` on strings (substring containment). -/
def pyIn (needle hay : String) : Bool :=
  containsL needle.toList hay.toList

/-- Python `str.lower()` (ASCII-faithful). -/
def lowerStr (s : String) : String :=
  String.mk (s.toList.map Char.toLower)

/-- Helper for `splitWs`: accumulates the current word (reversed). -/
def wordsAux : List Char → List Char → List (List Char)
  | [], acc => if acc.isEmpty then [] else [acc.reverse]
  | c :: cs, acc =>
    if c.isWhitespace then
      if acc.isEmpty then wordsAux cs [] else acc.reverse :: wordsAux cs []
    else wordsAux cs (c :: acc)

/-- Python `str.split()` with no argument: split on whitespace runs,
dropping empty pieces. -/
def splitWs (s : String) : List String :=
  (wordsAux s.toList []).map String.mk

/-- Python `str.strip()`: drop leading and trailing whitespace.  (The source
never calls it on the query; this models the wording of the spec.) -/
def trimStr (s : String) : String :=
  String.mk (((s.toList.dropWhile Char.isWhitespace).reverse.dropWhile
    Char.isWhitespace).reverse)

/-- Python `" ".join(xs)`. -/
def joinSp (xs : List String) : String :=
  String.intercalate " " xs

/-- A catalog row as `recommend` reads it (`self.df.iloc[idx].to_dict()`,
lines 114-116 and 149-156).  `alt_titles` uses `item.get(..., [])`, so a
missing list is already the empty list here. -/
structure Item where
  id : String
  title : String
  alt_titles : List String
  description : String
  tags : List String
  cover_art : Option String
  official_en_link : Option String
  year : Option Int
deriving DecidableEq, Inhabited

/-- The result record appended at lines 149-162. -/
structure RankedResult where
  id : String
  title : String
  description : String
  tags : List String
  image : Option String
  official_link : Option String
  year : Option Int
  score : ℚ
  dense_score : ℚ
  sparse_score : ℚ
  title_boost : ℚ
  match_reason : String
deriving DecidableEq, Inhabited

/-- Title-matching bonus, lines 126-132 of the source.  `query_lower` is
`query.lower()` (no strip), `query_words` is `query.lower().split()` (the
source wraps it in `set`, which is irrelevant to the `any`). -/
def titleBoost (query_lower : String) (query_words : List String)
    (title_lower alt_titles_lower : String) : ℚ :=
  if pyIn query_lower title_lower || pyIn query_lower alt_titles_lower then 1/2
  else if query_words.any (fun w => decide (3 < w.length) &&
      ((splitWs title_lower).contains w || (splitWs alt_titles_lower).contains w))
    then 1/5
  else 0

/-- One iteration of the candidate loop (lines 111-162) for the candidate at
catalog position `idx` with dense similarity `d`; `sparse` gives the TF-IDF
cosine score of the query against matrix row `idx` (line 123). -/
def mkResult (query_lower : String) (query_words : List String)
    (sparse : Nat → ℚ) (cat : List Item) (idx : Nat) (d : ℚ) : RankedResult :=
  let item := cat.getD idx default
  let title_lower := lowerStr item.title
  let alt_titles_lower := joinSp (item.alt_titles.map lowerStr)
  let s := sparse idx
  let t := titleBoost query_lower query_words title_lower alt_titles_lower
  let final_score := min (d * (1/2) + s * (3/10) + t) 1
  let reason :=
    if t ≥ 1/2 then "🎯 Direct Title Match"
    else if t > 0 then "⭐ Title Keyword Match"
    else if s > 2/5 then "🔍 Strong Keyword Match"
    else "Matches plot vibe"
  { id := item.id, title := item.title, description := item.description,
    tags := item.tags, image := item.cover_art,
    official_link := item.official_en_link, year := item.year,
    score := final_score, dense_score := d, sparse_score := s,
    title_boost := t, match_reason := reason }

/-- The `final_results` list before sorting: candidates with the FAISS
sentinel index `-1` are skipped (`continue`, line 112), the rest produce one
record each, in dense-search order. -/
def buildResults (cat : List Item) (dense : List (Int × ℚ))
    (sparse : Nat → ℚ) (query : String) : List RankedResult :=
  let ql := lowerStr query
  let qw := splitWs ql
  (dense.filter (fun p => p.1 != -1)).map
    (fun p => mkResult ql qw sparse cat p.1.toNat p.2)

/-- Stable descending insertion: `x` goes after every earlier element whose
score is strictly larger, before the first one with score ≤ `x.score`. -/
def insertByScore (x : RankedResult) : List RankedResult → List RankedResult
  | [] => [x]
  | y :: ys => if y.score > x.score then y :: insertByScore x ys else x :: y :: ys

/-- Stable descending sort by `score`: the model of
`final_results.sort(key=lambda x: x['score'], reverse=True)` (line 165).
Python sort is stable, and a stable descending sort has a unique output,
which this insertion sort produces. -/
def sortByScoreDesc : List RankedResult → List RankedResult
  | [] => []
  | x :: xs => insertByScore x (sortByScoreDesc xs)

/-- `ManhuaRecommender.recommend` (lines 91-166).  `cat` is `self.df`,
`dense` is `zip(I[0], D[0])` from the FAISS search, `sparse` the TF-IDF
cosine against row `idx`.  If `min(200, len(df)) == 0` the function returns
`[]` before searching (lines 97-98); otherwise it builds, sorts and
truncates to `top_k`. -/
def recommend (cat : List Item) (dense : List (Int × ℚ)) (sparse : Nat → ℚ)
    (query : String) (top_k : Nat) : List RankedResult :=
  if min 200 cat.length = 0 then []
  else (sortByScoreDesc (buildResults cat dense sparse query)).take top_k

/-- A raw catalog record as it arrives from the JSON array: every field may
be absent (`pd.DataFrame` turns an absent key into `NaN` in that cell, or
omits the column entirely when no record has the key). -/
structure RawEntry where
  id : Option String
  title : Option String
  alt_titles : Option (List String)
  tags : Option (List String)
  description : Option String
deriving DecidableEq

/-- The composite text of one row (lines 37-43).  pandas string
concatenation propagates `NaN`, and the trailing `.fillna("")` turns a
propagated `NaN` into the empty string, so a row with a missing title
yields `""`.  `description` was already `fillna("")`-ed in `__init__`
(line 23). -/
def combinedText (e : RawEntry) : String :=
  match e.title with
  | none => ""
  | some t =>
      t ++ " " ++ t ++ " " ++ joinSp (e.alt_titles.getD []) ++ " " ++
        joinSp (e.tags.getD []) ++ " " ++ e.description.getD ""

/-- The observable part of `fit` (lines 34-43): build the per-row composite
texts or raise.  Column lookups `df['title']`, `df['alt_titles']`,
`df['tags']` raise `KeyError` when no record has the key at all (pandas has
no such column; note the empty catalog has no columns either); a present
`alt_titles`/`tags` column with a `NaN` cell raises `TypeError` inside
`" ".join(x)`; a `NaN` title merely propagates and is `fillna`-ed to `""`.
The `id` field is never touched. -/
def fitTexts (cat : List RawEntry) : Except String (List String) :=
  if cat.all (fun e => e.title.isNone) then
    .error "KeyError: title"
  else if cat.all (fun e => e.alt_titles.isNone) then
    .error "KeyError: alt_titles"
  else if cat.any (fun e => e.alt_titles.isNone) then
    .error "TypeError: can only join an iterable"
  else if cat.all (fun e => e.tags.isNone) then
    .error "KeyError: tags"
  else if cat.any (fun e => e.tags.isNone) then
    .error "TypeError: can only join an iterable"
  else
    .ok (cat.map combinedText)

/-- The mutable artifacts of a `ManhuaRecommender` that `save`/`load`
handle: the FAISS index payload, the fitted vectorizer (vocabulary and IDF
weights), the TF-IDF matrix and the raw embeddings (lines 30-32, 68-89).
Vectors are rows of rationals. -/
structure PersistState where
  index : List (List ℚ)
  tfidf_vocab : List String
  tfidf_idf : List ℚ
  tfidf_matrix : List (List ℚ)
  embeddings : List (List ℚ)
deriving DecidableEq

/-- The two files `save` writes (lines 68-77): the FAISS index file and the
pickle dict `{'tfidf': ..., 'tfidf_matrix': ..., 'embeddings': ...}`. -/
structure SavedFiles where
  index_file : List (List ℚ)
  pickle_tfidf_vocab : List String
  pickle_tfidf_idf : List ℚ
  pickle_tfidf_matrix : List (List ℚ)
  pickle_embeddings : List (List ℚ)
deriving DecidableEq

/-- `save` (lines 68-77): serialize the index and the pickle dict.  The
faiss/pickle codecs are external collaborators, modelled as lossless. -/
def save (st : PersistState) : SavedFiles :=
  { index_file := st.index,
    pickle_tfidf_vocab := st.tfidf_vocab,
    pickle_tfidf_idf := st.tfidf_idf,
    pickle_tfidf_matrix := st.tfidf_matrix,
    pickle_embeddings := st.embeddings }

/-- `load` (lines 79-89): when either file is missing (`none`), return
`false` and leave the instance untouched; otherwise restore all four
artifacts and return `true`. -/
def load (files : Option SavedFiles) (st : PersistState) :
    Bool × PersistState :=
  match files with
  | none => (false, st)
  | some f =>
      (true,
        { index := f.index_file,
          tfidf_vocab := f.pickle_tfidf_vocab,
          tfidf_idf := f.pickle_tfidf_idf,
          tfidf_matrix := f.pickle_tfidf_matrix,
          embeddings := f.pickle_embeddings })

/-- `recommend` as driven by a `PersistState`: the query embedding plus the
FAISS search over the index payload is `searchFn`, and the TF-IDF transform
plus cosine against a matrix row is `cosFn` — both deterministic external
collaborators shared by every instance of the same library versions
(lines 93-106, 123). -/
def recommendWith
    (searchFn : List (List ℚ) → String → Nat → List (Int × ℚ))
    (cosFn : List String → List ℚ → List (List ℚ) → String → Nat → ℚ)
    (df : List Item) (st : PersistState) (query : String) (top_k : Nat) :
    List RankedResult :=
  recommend df (searchFn st.index query (min 200 df.length))
    (fun i => cosFn st.tfidf_vocab st.tfidf_idf st.tfidf_matrix query i)
    query top_k

/-- Well-formedness of the dense-search output the source relies on:
FAISS returns exactly `k_candidates = min(200, len(df))` slots, each either
the sentinel `-1` or a valid row index. -/
def ValidDense (cat : List Item) (dense : List (Int × ℚ)) : Prop :=
  dense.length = min 200 cat.length ∧
    ∀ p ∈ dense, p.1 = -1 ∨ (0 ≤ p.1 ∧ p.1.toNat < cat.length)

/-! ### Claim-level predicates, spec-side models, and concrete instances -/

/-- Descending order of final scores. -/
def ScoresDesc (l : List RankedResult) : Prop :=
  l.Pairwise (fun a b => b.score ≤ a.score)

/-- The catalog position (row index) of the entry with identifier `i`. -/
def posOfId (cat : List Item) (i : String) : Nat :=
  cat.findIdx (fun e => e.id == i)

/-- The ordering property claim C1 asserts of `recommend` output: scores
descending, and any two results of equal final score in ascending order of
their catalog position. -/
def SortedAndTiesAscend (cat : List Item) (out : List RankedResult) : Prop :=
  out.Pairwise (fun a b =>
    b.score ≤ a.score ∧ (a.score = b.score → posOfId cat a.id < posOfId cat b.id))

/-- The title boost exactly as `recommend` computes it for one entry
(lines 126-132), packaged on the raw query/title/alt-titles. -/
def codeTitleBoost (query title : String) (alts : List String) : ℚ :=
  titleBoost (lowerStr query) (splitWs (lowerStr query)) (lowerStr title)
    (joinSp (alts.map lowerStr))

/-- The title boost as claim C4 words it: the full query is lowercased AND
whitespace-trimmed before the substring test. -/
def claimedTitleBoost (query title : String) (alts : List String) : ℚ :=
  let q := trimStr (lowerStr query)
  let tl := lowerStr title
  let al := joinSp (alts.map lowerStr)
  if pyIn q tl || pyIn q al then 1/2
  else if (splitWs (lowerStr query)).any (fun w => decide (3 < w.length) &&
      ((splitWs tl).contains w || (splitWs al).contains w)) then 1/5
  else 0

/-- The title boost with the trimming removed — the amendment of claim C4
(the source never strips the query). -/
def claimedTitleBoostNoTrim (query title : String) (alts : List String) : ℚ :=
  let q := lowerStr query
  let tl := lowerStr title
  let al := joinSp (alts.map lowerStr)
  if pyIn q tl || pyIn q al then 1/2
  else if (splitWs (lowerStr query)).any (fun w => decide (3 < w.length) &&
      ((splitWs tl).contains w || (splitWs al).contains w)) then 1/5
  else 0

/-- The composite text as claim C8 words it: every missing field treated as
the empty string, independently of the others. -/
def claimedCombinedText (e : RawEntry) : String :=
  e.title.getD "" ++ " " ++ e.title.getD "" ++ " " ++
    joinSp (e.alt_titles.getD []) ++ " " ++ joinSp (e.tags.getD []) ++ " " ++
    e.description.getD ""

/-- Plain catalog item: only `id` and `title` vary in the test instances. -/
def mkItem (i t : String) : Item :=
  { id := i, title := t, alt_titles := [], description := "", tags := [],
    cover_art := none, official_en_link := none, year := none }

/-- C1 counterexample catalog: two entries with unrelated titles. -/
def catC1 : List Item := [mkItem "a" "alpha", mkItem "b" "beta"]

/-- C1 counterexample dense result: position 1 ahead of position 0. -/
def denseC1 : List (Int × ℚ) := [(1, 3/5), (0, 2/5)]

/-- C1 counterexample sparse scores, chosen to equalize the final scores. -/
def sparseC1 : Nat → ℚ := fun p => if p = 0 then 1/3 else 0

/-- C2 counterexample catalog: the queried title sits at position 0. -/
def catC2 : List Item := [mkItem "a" "qqqq story", mkItem "b" "other"]

/-- C2 counterexample dense result: the other entry dominates semantically. -/
def denseC2 : List (Int × ℚ) := [(1, 1), (0, 0)]

/-- C2 counterexample sparse scores: the other entry dominates lexically. -/
def sparseC2 : Nat → ℚ := fun p => if p = 1 then 1 else 0

/-- C2 witness catalog: a single entry. -/
def catC2w : List Item := [mkItem "s" "solo"]

/-- C3 inputs exhibiting a negative final score. -/
def catC3n : List Item := [mkItem "n" "n"]

/-- C3 witness catalog. -/
def catC3w : List Item := [mkItem "w" "ww"]

/-- C9 witness catalog. -/
def catC9w : List Item := [mkItem "u" "uu"]

/-- C10 witness catalog. -/
def catC10w : List Item := [mkItem "v" "vv"]

/-- C3 witness result: the record recommend returns on the witness run. -/
def rC3w : RankedResult :=
  mkResult (lowerStr "q") (splitWs (lowerStr "q")) (fun _ => 0) catC3w 0 (1/2)

/-- C10 witness result: the record recommend returns on the witness run. -/
def rC10w : RankedResult :=
  mkResult (lowerStr "") (splitWs (lowerStr "")) (fun _ => 0) catC10w 0 1

/-- C2 witness result: the record recommend returns on the witness run. -/
def rC2w : RankedResult :=
  mkResult (lowerStr "Solo") (splitWs (lowerStr "Solo")) (fun _ => 0) catC2w 0 1

/-- C8 witness catalog: one fully-populated raw entry. -/
def catC8w : List RawEntry := [⟨some "i", some "T", some ["a"], some ["g"], some "d"⟩]

/-! ### Helper lemmas on the string primitives -/

theorem startsWithL_self (l : List Char) : startsWithL l l = true := by
  induction l with
  | nil => rfl
  | cons a as ih => simp [startsWithL, ih]

theorem containsL_self (l : List Char) : containsL l l = true := by
  cases l with
  | nil => rfl
  | cons b bs => simp [containsL, startsWithL_self]

/-- The full string is a substring of itself (`s in s` in Python). -/
theorem pyIn_self (s : String) : pyIn s s = true :=
  containsL_self s.toList

theorem containsL_nil (l : List Char) : containsL [] l = true := by
  cases l with
  | nil => rfl
  | cons b bs => simp [containsL, startsWithL]

/-- The empty string is a substring of every string (`"" in s` in Python). -/
theorem pyIn_empty (s : String) : pyIn "" s = true :=
  containsL_nil s.toList

/-! ### Helper lemmas on the stable descending sort -/

theorem mem_insertByScore {x a : RankedResult} {l : List RankedResult} :
    a ∈ insertByScore x l ↔ a = x ∨ a ∈ l := by
  induction l with
  | nil => simp [insertByScore]
  | cons y ys ih =>
      by_cases h : y.score > x.score
      · simp only [insertByScore, if_pos h, List.mem_cons, ih]
        tauto
      · simp only [insertByScore, if_neg h, List.mem_cons]

theorem length_insertByScore (x : RankedResult) (l : List RankedResult) :
    (insertByScore x l).length = l.length + 1 := by
  induction l with
  | nil => rfl
  | cons y ys ih =>
      by_cases h : y.score > x.score
      · simp [insertByScore, if_pos h, ih]
      · simp [insertByScore, if_neg h]

theorem mem_sortByScoreDesc {a : RankedResult} {l : List RankedResult} :
    a ∈ sortByScoreDesc l ↔ a ∈ l := by
  induction l with
  | nil => simp [sortByScoreDesc]
  | cons y ys ih => simp [sortByScoreDesc, mem_insertByScore, ih]

theorem length_sortByScoreDesc (l : List RankedResult) :
    (sortByScoreDesc l).length = l.length := by
  induction l with
  | nil => rfl
  | cons y ys ih => simp [sortByScoreDesc, length_insertByScore, ih]

theorem scoresDesc_insertByScore {x : RankedResult} {l : List RankedResult}
    (h : ScoresDesc l) : ScoresDesc (insertByScore x l) := by
  induction l with
  | nil => simp [insertByScore, ScoresDesc]
  | cons y ys ih =>
      rw [ScoresDesc, List.pairwise_cons] at h
      by_cases hc : y.score > x.score
      · rw [ScoresDesc, insertByScore, if_pos hc, List.pairwise_cons]
        refine ⟨fun b hb => ?_, ih h.2⟩
        rcases mem_insertByScore.mp hb with rfl | hb
        · exact le_of_lt hc
        · exact h.1 b hb
      · rw [ScoresDesc, insertByScore, if_neg hc, List.pairwise_cons]
        push_neg at hc
        refine ⟨fun b hb => ?_, List.pairwise_cons.mpr h⟩
        rcases List.mem_cons.mp hb with rfl | hb
        · exact hc
        · exact le_trans (h.1 b hb) hc

theorem scoresDesc_sortByScoreDesc (l : List RankedResult) :
    ScoresDesc (sortByScoreDesc l) := by
  induction l with
  | nil => exact List.Pairwise.nil
  | cons y ys ih => exact scoresDesc_insertByScore ih

/-- Stability of the insertion step: inserting an element of score `c` does
not disturb the relative order of the elements of score `c`. -/
theorem filter_insertByScore_eq {c : ℚ} {x : RankedResult} (l : List RankedResult)
    (hx : x.score = c) :
    (insertByScore x l).filter (fun r => decide (r.score = c))
      = x :: l.filter (fun r => decide (r.score = c)) := by
  induction l with
  | nil => simp [insertByScore, hx]
  | cons y ys ih =>
      by_cases hc : y.score > x.score
      · have hy : ¬ y.score = c := by rw [← hx]; exact ne_of_gt hc
        rw [insertByScore, if_pos hc, List.filter_cons, List.filter_cons]
        simp only [hy, decide_eq_false, Bool.false_eq_true, if_false]
        exact ih
      · rw [insertByScore, if_neg hc, List.filter_cons]
        simp [hx]

theorem filter_insertByScore_ne {c : ℚ} {x : RankedResult} (l : List RankedResult)
    (hx : ¬ x.score = c) :
    (insertByScore x l).filter (fun r => decide (r.score = c))
      = l.filter (fun r => decide (r.score = c)) := by
  induction l with
  | nil => simp [insertByScore, hx]
  | cons y ys ih =>
      by_cases hc : y.score > x.score
      · rw [insertByScore, if_pos hc, List.filter_cons, List.filter_cons]
        rw [ih]
      · rw [insertByScore, if_neg hc, List.filter_cons]
        simp [hx]

/-- Stability of the sort: for every score value, the sublist of results
having exactly that score is unchanged by the sort.  Python sort is stable,
and this pins the tie order to the pre-sort (dense candidate) order. -/
theorem filter_sortByScoreDesc (c : ℚ) (l : List RankedResult) :
    (sortByScoreDesc l).filter (fun r => decide (r.score = c))
      = l.filter (fun r => decide (r.score = c)) := by
  induction l with
  | nil => rfl
  | cons y ys ih =>
      by_cases hy : y.score = c
      · rw [sortByScoreDesc, filter_insertByScore_eq _ hy, ih, List.filter_cons]
        simp [hy]
      · rw [sortByScoreDesc, filter_insertByScore_ne _ hy, ih, List.filter_cons]
        simp [hy]

/-- The head of the sorted list is the strict maximum when there is one. -/
theorem head_sortByScoreDesc_of_max {x : RankedResult} {l : List RankedResult}
    (hx : x ∈ l) (hmax : ∀ y ∈ l, y = x ∨ y.score < x.score) :
    (sortByScoreDesc l).head? = some x := by
  induction l with
  | nil => cases hx
  | cons a as ih =>
      rw [sortByScoreDesc]
      rcases List.mem_cons.mp hx with rfl | hxas
      · cases hsort : sortByScoreDesc as with
        | nil => simp [insertByScore]
        | cons b bs =>
            have hb : b ∈ as := by
              rw [← mem_sortByScoreDesc (l := as), hsort]; exact List.mem_cons_self b bs
            have : ¬ b.score > x.score := by
              rcases hmax b (List.mem_cons_of_mem _ hb) with rfl | hlt
              · exact lt_irrefl _
              · exact not_lt.mpr (le_of_lt hlt)
            simp [insertByScore, this]
      · have hhead : (sortByScoreDesc as).head? = some x := by
          apply ih hxas
          intro y hy
          exact hmax y (List.mem_cons_of_mem _ hy)
        cases hsort : sortByScoreDesc as with
        | nil => rw [hsort] at hhead; cases hhead
        | cons b bs =>
            rw [hsort] at hhead
            have hbx : b = x := by simpa using hhead
            subst hbx
            rcases hmax a (List.mem_cons_self a as) with rfl | hlt
            · rw [insertByScore, if_neg (lt_irrefl a.score)]; rfl
            · rw [insertByScore, if_pos hlt]; rfl

theorem head?_take {α : Type} {l : List α} {k : Nat} (hk : 1 ≤ k) :
    (l.take k).head? = l.head? := by
  cases l with
  | nil => simp
  | cons a as =>
      cases k with
      | zero => omega
      | succ n => simp [List.take]

/-! ### Helper lemmas on `buildResults` and `recommend` -/

theorem mem_buildResults {r : RankedResult} {cat : List Item}
    {dense : List (Int × ℚ)} {sparse : Nat → ℚ} {q : String} :
    r ∈ buildResults cat dense sparse q ↔
      ∃ p ∈ dense, p.1 ≠ -1 ∧
        r = mkResult (lowerStr q) (splitWs (lowerStr q)) sparse cat p.1.toNat p.2 := by
  simp only [buildResults, List.mem_map, List.mem_filter, bne_iff_ne, ne_eq]
  constructor
  · rintro ⟨p, ⟨hp, hne⟩, rfl⟩
    exact ⟨p, hp, hne, rfl⟩
  · rintro ⟨p, hp, hne, rfl⟩
    exact ⟨p, ⟨hp, hne⟩, rfl⟩

theorem mem_recommend {r : RankedResult} {cat : List Item}
    {dense : List (Int × ℚ)} {sparse : Nat → ℚ} {q : String} {k : Nat}
    (h : r ∈ recommend cat dense sparse q k) :
    r ∈ buildResults cat dense sparse q := by
  rw [recommend] at h
  split at h
  · cases h
  · exact mem_sortByScoreDesc.mp (List.take_subset _ _ h)

/-! ### Claims -/

/-- C1 counterexample: with two candidates whose final scores tie at 3/10
but whose dense similarities differ, the stable sort keeps dense-search
order, so the result at catalog position 1 precedes the one at position 0 —
the claimed ascending-position tie order is violated. -/
theorem C1_counterexample :
    ¬ SortedAndTiesAscend catC1 (recommend catC1 denseC1 sparseC1 "zzzz" 10) := by
  unfold SortedAndTiesAscend
  decide

/-- C1 (amended): the list returned by recommend is sorted by descending
final score, and results with equal final score appear in the order the
dense search returned the candidates (the sort is stable), which need not
be ascending catalog position. -/
theorem C1_sorted_stable (cat : List Item) (dense : List (Int × ℚ))
    (sparse : Nat → ℚ) (q : String) (k : Nat) :
    ScoresDesc (recommend cat dense sparse q k) ∧
    ∀ c : ℚ, (sortByScoreDesc (buildResults cat dense sparse q)).filter
        (fun r => decide (r.score = c))
      = (buildResults cat dense sparse q).filter (fun r => decide (r.score = c)) := by
  constructor
  · rw [recommend]
    split
    · exact List.Pairwise.nil
    · exact (scoresDesc_sortByScoreDesc _).sublist (List.take_sublist _ _)
  · intro c
    exact filter_sortByScoreDesc c _

/-- C5: for every query and every top_k, recommend on a zero-entry catalog
returns the empty sequence; the embedding is a total function, so no
exception is raised on this path (the source returns before searching). -/
theorem C5_empty_catalog (dense : List (Int × ℚ)) (sparse : Nat → ℚ)
    (q : String) (k : Nat) : recommend [] dense sparse q k = [] := rfl

/-- C7: save() followed by load() into a fresh instance reports success and
restores every artifact recommend reads (index, vectorizer, TF-IDF matrix),
so recommend output over the same catalog is identical to the original
instance's, for every query and top_k. -/
theorem C7_save_load_roundtrip
    (searchFn : List (List ℚ) → String → Nat → List (Int × ℚ))
    (cosFn : List String → List ℚ → List (List ℚ) → String → Nat → ℚ)
    (df : List Item) (R fresh : PersistState) (q : String) (k : Nat) :
    (load (some (save R)) fresh).1 = true ∧
    recommendWith searchFn cosFn df (load (some (save R)) fresh).2 q k
      = recommendWith searchFn cosFn df R q k :=
  ⟨rfl, rfl⟩

theorem lowerStr_empty : lowerStr "" = "" := rfl

/-- C3: every returned result's final score equals
min(dense·0.5 + sparse·0.3 + boost, 1.0) of its own stored components,
hence is always ≤ 1.0; and no lower bound is enforced — a run with a
negative dense similarity yields a negative final score. -/
theorem C3_score_formula :
    (∀ (cat : List Item) (dense : List (Int × ℚ)) (sparse : Nat → ℚ)
        (q : String) (k : Nat), ∀ r ∈ recommend cat dense sparse q k,
      r.score = min (r.dense_score * (1/2) + r.sparse_score * (3/10) + r.title_boost) 1 ∧
      r.score ≤ 1) ∧
    ∃ r ∈ recommend catC3n [((0:Int), -1)] (fun _ => 0) "qqqq" 1, r.score < 0 := by
  constructor
  · intro cat dense sparse q k r hr
    obtain ⟨p, _hp, _hne, rfl⟩ := mem_buildResults.mp (mem_recommend hr)
    exact ⟨rfl, min_le_right _ _⟩
  · refine ⟨mkResult (lowerStr "qqqq") (splitWs (lowerStr "qqqq"))
      (fun _ => 0) catC3n 0 (-1), by decide, by decide⟩

/-- C3 witness: the score formula instantiated on a concrete run. -/
theorem C3_score_formula_witness :
    rC3w.score = min (rC3w.dense_score * (1/2) + rC3w.sparse_score * (3/10)
        + rC3w.title_boost) 1 ∧ rC3w.score ≤ 1 :=
  C3_score_formula.1 catC3w [((0:Int), 1/2)] (fun _ => 0) "q" 1 rC3w (by decide)

/-- C9: for k ≥ 1 and a well-formed dense result, the length of the
recommend output equals min(k, number of valid candidates), and never
exceeds k nor the catalog size. -/
theorem C9_topk_contract (cat : List Item) (dense : List (Int × ℚ))
    (sparse : Nat → ℚ) (q : String) (k : Nat)
    (hv : ValidDense cat dense) (hk : 1 ≤ k) :
    (recommend cat dense sparse q k).length
        = min k ((dense.filter (fun p => p.1 != -1)).length) ∧
    (recommend cat dense sparse q k).length ≤ k ∧
    (recommend cat dense sparse q k).length ≤ cat.length := by
  have hcnt : (dense.filter (fun p => p.1 != -1)).length ≤ cat.length := by
    calc (dense.filter (fun p => p.1 != -1)).length
        ≤ dense.length := List.length_filter_le _ _
      _ = min 200 cat.length := hv.1
      _ ≤ cat.length := min_le_right _ _
  rw [recommend]
  split
  · next h =>
      have h0 : cat.length = 0 := by omega
      have hd : dense.length = 0 := by rw [hv.1, h0]; rfl
      have hnil : dense = [] := List.length_eq_zero.mp hd
      subst hnil
      simp
  · next h =>
      refine ⟨?_, ?_, ?_⟩
      · rw [List.length_take, length_sortByScoreDesc]
        congr 1
        simp [buildResults]
      · rw [List.length_take]
        exact min_le_left _ _
      · rw [List.length_take, length_sortByScoreDesc]
        refine le_trans (min_le_right _ _) ?_
        simpa [buildResults] using hcnt

/-- C9 witness: the top-k contract instantiated on a concrete run. -/
theorem C9_topk_contract_witness :
    (recommend catC9w [((0:Int), 1/2)] (fun _ => 0) "q" 1).length
        = min 1 (([((0:Int), 1/2)].filter (fun p => p.1 != -1)).length) ∧
    (recommend catC9w [((0:Int), 1/2)] (fun _ => 0) "q" 1).length ≤ 1 ∧
    (recommend catC9w [((0:Int), 1/2)] (fun _ => 0) "q" 1).length ≤ catC9w.length :=
  C9_topk_contract catC9w [((0:Int), 1/2)] (fun _ => 0) "q" 1
    ⟨by decide, by decide⟩ (by decide)

/-- C10: for the empty-string query, every returned result carries the
maximal title boost 0.5 (the empty string is a substring of every title)
and the direct-title-match reason. -/
theorem C10_empty_query (cat : List Item) (dense : List (Int × ℚ))
    (sparse : Nat → ℚ) (k : Nat) :
    ∀ r ∈ recommend cat dense sparse "" k,
      r.title_boost = 1/2 ∧ r.match_reason = "🎯 Direct Title Match" := by
  intro r hr
  obtain ⟨p, _hp, _hne, rfl⟩ := mem_buildResults.mp (mem_recommend hr)
  constructor
  · simp [mkResult, titleBoost, lowerStr_empty, pyIn_empty]
  · simp [mkResult, titleBoost, lowerStr_empty, pyIn_empty]

/-- C10 witness: the empty-query boost instantiated on a concrete run. -/
theorem C10_empty_query_witness :
    rC10w.title_boost = 1/2 ∧ rC10w.match_reason = "🎯 Direct Title Match" :=
  C10_empty_query catC10w [((0:Int), 1)] (fun _ => 0) 3 rC10w (by decide)

theorem combinedText_eraseId (e : RawEntry) :
    combinedText { e with id := none } = combinedText e := rfl

/-- C4 counterexample: for the query " ab" (leading space) over the title
"ab", the claimed trimmed-substring rule yields boost 0.5, but the source
never trims the query — recommend assigns boost 0. -/
theorem C4_counterexample :
    claimedTitleBoost " ab" "ab" [] = 1/2 ∧
    codeTitleBoost " ab" "ab" [] = 0 ∧
    ((recommend [mkItem "x" "ab"] [((0:Int), 0)] (fun _ => 0) " ab" 5).map
      (fun r => r.title_boost)) = [0] := by
  refine ⟨by decide, by decide, by decide⟩

/-- C4 (amended): the title boost is 0.5 when the lowercased full query
(with no whitespace trimming) is a substring of the title or of the joined
alternate titles; else 0.2 when some query token longer than 3 characters
occurs as a whole word there; else 0. -/
theorem C4_boost_rule (query title : String) (alts : List String) :
    codeTitleBoost query title alts = claimedTitleBoostNoTrim query title alts := rfl

/-- C6 counterexample: a catalog entry lacking `id` (title and the list
fields present) — fit completes and builds the composite text; it does not
fail. -/
theorem C6_counterexample :
    fitTexts [⟨none, some "A", some [], some [], some ""⟩]
      = Except.ok ["A A   "] := rfl

/-- C6 (amended): fit never reads `id` — removing every id leaves its
outcome unchanged — and an entry missing `title` alongside an entry that
has one yields an empty composite text instead of failing; fit only fails
on missing `alt_titles`/`tags` cells or entirely absent columns. -/
theorem C6_fit_validation :
    (∀ cat : List RawEntry,
      fitTexts (cat.map (fun e => { e with id := none })) = fitTexts cat) ∧
    (∀ (i1 i2 : Option String) (as1 ts1 as2 ts2 : List String) (d1 t2 d2 : String),
      fitTexts [⟨i1, none, some as1, some ts1, some d1⟩,
                ⟨i2, some t2, some as2, some ts2, some d2⟩]
        = Except.ok ["", t2 ++ " " ++ t2 ++ " " ++ joinSp as2 ++ " " ++
            joinSp ts2 ++ " " ++ d2]) := by
  constructor
  · intro cat
    have hmap : (combinedText ∘ fun e : RawEntry => { e with id := none })
        = combinedText := by
      funext e
      exact combinedText_eraseId e
    simp [fitTexts, List.all_map, List.any_map, List.map_map, hmap]
  · intro i1 i2 as1 ts1 as2 ts2 d1 t2 d2
    rfl

/-- C8 counterexample: an entry missing `alt_titles` makes fit raise
instead of treating the field as empty; and an entry missing `title`
yields the empty composite rather than the claimed per-field formula
(which gives "  a g d" there). -/
theorem C8_counterexample :
    fitTexts [⟨some "x", some "T", none, some ["g"], some "d"⟩]
      = Except.error "KeyError: alt_titles" ∧
    fitTexts [⟨some "x", none, some ["a"], some ["g"], some "d"⟩,
              ⟨some "y", some "T", some [], some [], some ""⟩]
      = Except.ok ["", "T T   "] ∧
    claimedCombinedText ⟨some "x", none, some ["a"], some ["g"], some "d"⟩
      = "  a g d" ∧
    ("" : String) ≠ "  a g d" := by
  refine ⟨rfl, rfl, rfl, by decide⟩

/-- C8 (amended): when every entry has `alt_titles` and `tags` and some
entry has a `title`, fit succeeds and each composite equals the spec
formula whenever the entry's title is present (missing description is
treated as empty); an entry with a missing title yields the empty
composite instead. -/
theorem C8_composite_text (cat : List RawEntry)
    (hl : ∀ e ∈ cat, e.alt_titles.isSome ∧ e.tags.isSome)
    (ht : ∃ e ∈ cat, e.title.isSome) :
    fitTexts cat = Except.ok (cat.map combinedText) ∧
    ∀ e ∈ cat,
      (e.title.isSome → combinedText e = claimedCombinedText e) ∧
      (e.title = none → combinedText e = "") := by
  obtain ⟨e0, he0, he0t⟩ := ht
  have h1 : cat.all (fun e => e.title.isNone) = false := by
    rw [List.all_eq_false]
    exact ⟨e0, he0, by cases h : e0.title <;> simp_all⟩
  have h2 : cat.all (fun e => e.alt_titles.isNone) = false := by
    rw [List.all_eq_false]
    exact ⟨e0, he0, by have := (hl e0 he0).1; cases h : e0.alt_titles <;> simp_all⟩
  have h3 : cat.any (fun e => e.alt_titles.isNone) = false := by
    rw [List.any_eq_false]
    intro e he
    have := (hl e he).1
    cases h : e.alt_titles <;> simp_all
  have h4 : cat.all (fun e => e.tags.isNone) = false := by
    rw [List.all_eq_false]
    exact ⟨e0, he0, by have := (hl e0 he0).2; cases h : e0.tags <;> simp_all⟩
  have h5 : cat.any (fun e => e.tags.isNone) = false := by
    rw [List.any_eq_false]
    intro e he
    have := (hl e he).2
    cases h : e.tags <;> simp_all
  refine ⟨by rw [fitTexts]; simp [h1, h2, h3, h4, h5], ?_⟩
  intro e he
  constructor
  · intro hsome
    obtain ⟨t, ht'⟩ := Option.isSome_iff_exists.mp hsome
    simp [combinedText, claimedCombinedText, ht']
  · intro hnone
    simp [combinedText, hnone]

/-- C8 witness: fit succeeds on a fully-populated catalog with the
spec-formula composites. -/
theorem C8_composite_text_witness :
    fitTexts catC8w = Except.ok (catC8w.map combinedText) :=
  (C8_composite_text catC8w (by decide) (by decide)).1

/-- C2 counterexample: querying the exact (case-insensitive) title of
entry "a" does not rank it first — the rival entry's dense+sparse total
0.8 beats the boosted 0.5 — and the two scores differ, so no tie is
involved. -/
theorem C2_counterexample :
    lowerStr "qqqq story" = lowerStr (catC2.getD 0 default).title ∧
    ((recommend catC2 denseC2 sparseC2 "qqqq story" 5).map
      (fun r => (r.id, r.score))) = [("b", 4/5), ("a", 1/2)] ∧
    (catC2.getD 0 default).id = "a" := by
  refine ⟨rfl, by decide, rfl⟩

/-- C2 (amended): a query equal (case-insensitively) to entry E's title
gives E the 0.5 title boost, and E is placed at rank 0 provided E appears
in the dense candidate pool and its final score strictly exceeds every
other candidate's — the boost alone does not guarantee rank 0, since a
rival's combined dense and sparse contribution (up to 0.8) can exceed E's
total when E's own dense/sparse components are low. -/
theorem C2_exact_title (cat : List Item) (dense : List (Int × ℚ))
    (sparse : Nat → ℚ) (q : String) (k : Nat) (p : Nat) (dE : ℚ)
    (hp : p < cat.length)
    (hq : lowerStr q = lowerStr (cat.getD p default).title)
    (hmem : ((p : Int), dE) ∈ dense)
    (hk : 1 ≤ k)
    (hdom : ∀ pr ∈ dense, pr ≠ ((p : Int), dE) → pr.1 ≠ -1 →
      (mkResult (lowerStr q) (splitWs (lowerStr q)) sparse cat pr.1.toNat pr.2).score
        < (mkResult (lowerStr q) (splitWs (lowerStr q)) sparse cat p dE).score) :
    (recommend cat dense sparse q k).head?
      = some (mkResult (lowerStr q) (splitWs (lowerStr q)) sparse cat p dE) ∧
    (mkResult (lowerStr q) (splitWs (lowerStr q)) sparse cat p dE).title_boost
      = 1/2 := by
  have hboost :
      (mkResult (lowerStr q) (splitWs (lowerStr q)) sparse cat p dE).title_boost
        = 1/2 := by
    show titleBoost (lowerStr q) (splitWs (lowerStr q))
      (lowerStr (cat.getD p default).title)
      (joinSp ((cat.getD p default).alt_titles.map lowerStr)) = 1/2
    rw [titleBoost, if_pos]
    rw [hq, pyIn_self]
    simp
  have hmemb : mkResult (lowerStr q) (splitWs (lowerStr q)) sparse cat p dE
      ∈ buildResults cat dense sparse q := by
    apply mem_buildResults.mpr
    refine ⟨((p : Int), dE), hmem, by simp, by simp⟩
  have hmax : ∀ y ∈ buildResults cat dense sparse q,
      y = mkResult (lowerStr q) (splitWs (lowerStr q)) sparse cat p dE ∨
        y.score < (mkResult (lowerStr q) (splitWs (lowerStr q)) sparse cat p dE).score := by
    intro y hy
    obtain ⟨pr, hpr, hne, rfl⟩ := mem_buildResults.mp hy
    by_cases heq : pr = ((p : Int), dE)
    · subst heq
      left
      simp
    · right
      exact hdom pr hpr heq hne
  refine ⟨?_, hboost⟩
  rw [recommend, if_neg (by omega), head?_take hk]
  exact head_sortByScoreDesc_of_max hmemb hmax

/-- C2 witness: the amended statement instantiated on a one-entry catalog
queried with its own title in different case. -/
theorem C2_exact_title_witness :
    (recommend catC2w [((0:Int), 1)] (fun _ => 0) "Solo" 1).head? = some rC2w ∧
    rC2w.title_boost = 1/2 :=
  C2_exact_title catC2w [((0:Int), 1)] (fun _ => 0) "Solo" 1 0 1
    (by decide) (by decide) (by decide) (by decide) (by decide)

end Manhua
